import Mathlib

/-!
Verification of the ChameleonUltra toolbox core: the binary frame codec
(encode and streaming decode with LRC checksums), the command channel
(pending-response correlation with timeouts), the bulk chunked slot
read loop, the reader-mode scan script control flow, and the RFID dump
analyzer (tag classification, NDEF TLV parsing, EM410x decoding).

Byte buffers are modelled as `List Nat` with entries understood to be in
[0, 256) (the JavaScript source operates on `Uint8Array`).  JavaScript
32-bit signed bitwise arithmetic is made explicit where it matters
(`jsToInt32`).  The streaming decoder loop consumes at least one byte per
iteration, so it is embedded with a fuel parameter instantiated at the
buffer length, which is always sufficient.
-/

namespace ChameleonSpec

/-- Byte access `buf[i]` on a byte buffer, with the JavaScript out-of-range
read modelled as 0 (every access proved about below is in range). -/
def byteAt (l : List Nat) (i : Nat) : Nat := l.getD i 0

/-- Slice `buf.slice(a, b)` of a byte buffer. -/
def listSlice (l : List Nat) (a b : Nat) : List Nat := (l.drop a).take (b - a)

@[simp] theorem byteAt_cons_zero (a : Nat) (l : List Nat) : byteAt (a :: l) 0 = a := rfl

@[simp] theorem byteAt_cons_succ (a : Nat) (l : List Nat) (n : Nat) :
    byteAt (a :: l) (n + 1) = byteAt l n := rfl

theorem byteAt_append_right (l r : List Nat) (n : Nat) :
    byteAt (l ++ r) (l.length + n) = byteAt r n := by
  induction l with
  | nil => simp
  | cons a t ih => simpa [Nat.succ_add, byteAt] using ih

theorem byteAt_drop (l : List Nat) (a n : Nat) : byteAt (l.drop a) n = byteAt l (a + n) := by
  induction a generalizing l with
  | zero => simp
  | succ a ih =>
    cases l with
    | nil => simp [byteAt]
    | cons x t =>
      rw [List.drop_succ_cons, ih t, Nat.succ_add, byteAt_cons_succ]

theorem take_append_length (l r : List Nat) (n : Nat) :
    (l ++ r).take (l.length + n) = l ++ r.take n := by
  induction l with
  | nil => simp
  | cons a t ih => simp [Nat.succ_add, ih]

/-- Start-of-frame marker byte of the wire protocol. -/
def SOF : Nat := 0x11

/-- LRC checksum from the source: sum all bytes mod 256, then return
the negated sum `(0x100 - sum) & 0xFF`. -/
def lrcCalc (data : List Nat) : Nat :=
  (0x100 - data.foldl (fun r b => (r + b) % 256) 0) % 256

/-- A decoded frame `(cmd, status, data)` as surfaced to callers. -/
structure Frame where
  cmd : Nat
  status : Nat
  data : List Nat
deriving DecidableEq, Repr

/-- Encoder `makeDataFrame(cmd, data, status)` from the source:
`SOF(1) | LRC1(1) | CMD(2) | STATUS(2) | LEN(2) | LRC2(1) | DATA(n) | LRC3(1)`
with big-endian 16-bit fields and the three LRC bytes backfilled over the
prefixes ending just before their own positions. -/
def makeDataFrame (cmd : Nat) (data : List Nat) (status : Nat) : List Nat :=
  let dataLen := data.length
  let p8 : List Nat :=
    [SOF, lrcCalc [SOF], cmd / 256 % 256, cmd % 256,
     status / 256 % 256, status % 256, dataLen / 256 % 256, dataLen % 256]
  let p9 := p8 ++ [lrcCalc p8] ++ data
  p9 ++ [lrcCalc p9]

/-- LEN field parsed from a buffered header: `(buf[6] << 8) | buf[7]`. -/
def headerDataLen (buf : List Nat) : Nat := byteAt buf 6 * 256 + byteAt buf 7

/-- Frame assembled by the decoder once all checks pass: CMD and STATUS from
the header, DATA from `buf.slice(9, 9 + LEN)`. -/
def frameAt (buf : List Nat) : Frame :=
  { cmd := byteAt buf 2 * 256 + byteAt buf 3
    status := byteAt buf 4 * 256 + byteAt buf 5
    data := (buf.drop 9).take (headerDataLen buf) }

/-- Outcome of one iteration of the `parseFrames` while-loop. -/
inductive Step where
  | needMore : Step
  | drop : Step
  | emit (f : Frame) (consumed : Nat) : Step
deriving DecidableEq, Repr

/-- One iteration of the streaming decoder loop from the source, in the
exact check order: header length, SOF, LRC1, complete-frame length,
LRC2, LRC3; any failed validation discards exactly one leading byte. -/
def parseStep (buf : List Nat) : Step :=
  if buf.length < 9 then .needMore
  else if byteAt buf 0 ≠ SOF then .drop
  else if byteAt buf 1 ≠ lrcCalc (buf.take 1) then .drop
  else
    let dataLen := headerDataLen buf
    let frameLen := 9 + dataLen + 1
    if buf.length < frameLen then .needMore
    else if byteAt buf 8 ≠ lrcCalc (buf.take 8) then .drop
    else if byteAt buf (9 + dataLen) ≠ lrcCalc (buf.take (9 + dataLen)) then .drop
    else .emit (frameAt buf) frameLen

/-- Fuelled unfolding of the decoder while-loop.  Every recursive call
consumes at least one buffered byte, so fuel equal to the buffer length is
always sufficient; the fuel-zero branch returns the buffer unchanged and is
unreachable from `parseFrames`. -/
def parseFramesAux : Nat → List Nat → List Frame × List Nat
  | 0, buf => ([], buf)
  | fuel + 1, buf =>
    match parseStep buf with
    | .needMore => ([], buf)
    | .drop => parseFramesAux fuel (buf.drop 1)
    | .emit f n =>
      let r := parseFramesAux fuel (buf.drop n)
      (f :: r.1, r.2)

/-- Streaming decoder `parseFrames`: repeatedly validates and emits frames
from the front of the accumulated buffer, returning the emitted frames and
the remaining (unconsumed) buffer. -/
def parseFrames (buf : List Nat) : List Frame × List Nat :=
  parseFramesAux buf.length buf

theorem parseFramesAux_nil (fuel : Nat) : parseFramesAux fuel [] = ([], []) := by
  cases fuel <;> rfl

theorem parseFramesAux_succ (fuel : Nat) (buf : List Nat) :
    parseFramesAux (fuel + 1) buf =
      match parseStep buf with
      | .needMore => ([], buf)
      | .drop => parseFramesAux fuel (buf.drop 1)
      | .emit f n =>
        let r := parseFramesAux fuel (buf.drop n)
        (f :: r.1, r.2) := rfl

theorem be16_split (n : Nat) (h : n < 65536) : n / 256 % 256 * 256 + n % 256 = n := by
  have h1 : n / 256 < 256 := by omega
  rw [Nat.mod_eq_of_lt h1]
  omega

/-- Shape of a well-formed buffered frame: 8 header bytes with correct LRC1,
then the correct LRC2, then the payload and the correct LRC3. -/
def wireFrame (x2 x3 x4 x5 x6 x7 : Nat) (data : List Nat) : List Nat :=
  [SOF, lrcCalc [SOF], x2, x3, x4, x5, x6, x7,
    lrcCalc [SOF, lrcCalc [SOF], x2, x3, x4, x5, x6, x7]] ++
  (data ++ [lrcCalc ([SOF, lrcCalc [SOF], x2, x3, x4, x5, x6, x7,
    lrcCalc [SOF, lrcCalc [SOF], x2, x3, x4, x5, x6, x7]] ++ data)])

theorem wireFrame_length (x2 x3 x4 x5 x6 x7 : Nat) (data : List Nat) :
    (wireFrame x2 x3 x4 x5 x6 x7 data).length = 10 + data.length := by
  simp [wireFrame]
  omega

theorem makeDataFrame_eq_wireFrame (cmd : Nat) (data : List Nat) (status : Nat) :
    makeDataFrame cmd data status =
      wireFrame (cmd / 256 % 256) (cmd % 256) (status / 256 % 256) (status % 256)
        (data.length / 256 % 256) (data.length % 256) data := by
  simp [makeDataFrame, wireFrame]

theorem makeDataFrame_length (cmd : Nat) (data : List Nat) (status : Nat) :
    (makeDataFrame cmd data status).length = 10 + data.length := by
  rw [makeDataFrame_eq_wireFrame, wireFrame_length]

/-- On a well-formed wire frame whose LEN field matches the payload length,
one decoder step emits the parsed frame and consumes the whole encoding. -/
theorem parseStep_wireFrame (x2 x3 x4 x5 x6 x7 : Nat) (data : List Nat)
    (hlen : x6 * 256 + x7 = data.length) :
    parseStep (wireFrame x2 x3 x4 x5 x6 x7 data) =
      .emit ⟨x2 * 256 + x3, x4 * 256 + x5, data⟩ (10 + data.length) := by
  have hL : (wireFrame x2 x3 x4 x5 x6 x7 data).length = 10 + data.length :=
    wireFrame_length ..
  have hdl : headerDataLen (wireFrame x2 x3 x4 x5 x6 x7 data) = data.length := by
    simpa [headerDataLen, wireFrame] using hlen
  have hdrop9 : (wireFrame x2 x3 x4 x5 x6 x7 data).drop 9 =
      data ++ [lrcCalc ([SOF, lrcCalc [SOF], x2, x3, x4, x5, x6, x7,
        lrcCalc [SOF, lrcCalc [SOF], x2, x3, x4, x5, x6, x7]] ++ data)] := rfl
  have htake : (wireFrame x2 x3 x4 x5 x6 x7 data).take (9 + data.length) =
      [SOF, lrcCalc [SOF], x2, x3, x4, x5, x6, x7,
        lrcCalc [SOF, lrcCalc [SOF], x2, x3, x4, x5, x6, x7]] ++ data := by
    have h9 : ([SOF, lrcCalc [SOF], x2, x3, x4, x5, x6, x7,
        lrcCalc [SOF, lrcCalc [SOF], x2, x3, x4, x5, x6, x7]] : List Nat).length = 9 := rfl
    calc (wireFrame x2 x3 x4 x5 x6 x7 data).take (9 + data.length)
        = [SOF, lrcCalc [SOF], x2, x3, x4, x5, x6, x7,
            lrcCalc [SOF, lrcCalc [SOF], x2, x3, x4, x5, x6, x7]] ++
          (data ++ [lrcCalc ([SOF, lrcCalc [SOF], x2, x3, x4, x5, x6, x7,
            lrcCalc [SOF, lrcCalc [SOF], x2, x3, x4, x5, x6, x7]] ++ data)]).take data.length := by
          rw [wireFrame, ← h9, take_append_length]
      _ = _ := by rw [List.take_left]
  have hb9 : byteAt (wireFrame x2 x3 x4 x5 x6 x7 data) (9 + data.length) =
      lrcCalc ([SOF, lrcCalc [SOF], x2, x3, x4, x5, x6, x7,
        lrcCalc [SOF, lrcCalc [SOF], x2, x3, x4, x5, x6, x7]] ++ data) := by
    rw [← byteAt_drop _ 9 data.length, hdrop9]
    simpa using byteAt_append_right data _ 0
  have hb2 : byteAt (wireFrame x2 x3 x4 x5 x6 x7 data) 2 = x2 := rfl
  have hb3 : byteAt (wireFrame x2 x3 x4 x5 x6 x7 data) 3 = x3 := rfl
  have hb4 : byteAt (wireFrame x2 x3 x4 x5 x6 x7 data) 4 = x4 := rfl
  have hb5 : byteAt (wireFrame x2 x3 x4 x5 x6 x7 data) 5 = x5 := rfl
  have hframe : frameAt (wireFrame x2 x3 x4 x5 x6 x7 data) =
      ⟨x2 * 256 + x3, x4 * 256 + x5, data⟩ := by
    simp only [frameAt, hb2, hb3, hb4, hb5, hdrop9, hdl, List.take_left]
  rw [parseStep]
  rw [if_neg (by omega : ¬ (wireFrame x2 x3 x4 x5 x6 x7 data).length < 9)]
  rw [if_neg (by simp [wireFrame] : ¬ byteAt (wireFrame x2 x3 x4 x5 x6 x7 data) 0 ≠ SOF)]
  rw [if_neg (by simp [wireFrame, List.take] : ¬ byteAt (wireFrame x2 x3 x4 x5 x6 x7 data) 1 ≠
    lrcCalc ((wireFrame x2 x3 x4 x5 x6 x7 data).take 1))]
  simp only [hdl]
  rw [if_neg (by omega : ¬ (wireFrame x2 x3 x4 x5 x6 x7 data).length < 9 + data.length + 1)]
  rw [if_neg (by simp [wireFrame, List.take] : ¬ byteAt (wireFrame x2 x3 x4 x5 x6 x7 data) 8 ≠
    lrcCalc ((wireFrame x2 x3 x4 x5 x6 x7 data).take 8))]
  rw [if_neg (by rw [htake, hb9]; exact not_ne_iff.mpr rfl :
    ¬ byteAt (wireFrame x2 x3 x4 x5 x6 x7 data) (9 + data.length) ≠
    lrcCalc ((wireFrame x2 x3 x4 x5 x6 x7 data).take (9 + data.length)))]
  rw [hframe, (by omega : 9 + data.length + 1 = 10 + data.length)]

/-- The decoder accepts an encoded frame in one step, emitting exactly the
encoded command, status and payload and consuming the whole frame. -/
theorem parseStep_makeDataFrame (cmd : Nat) (data : List Nat) (status : Nat)
    (hc : cmd < 65536) (hs : status < 65536) (hl : data.length < 65536) :
    parseStep (makeDataFrame cmd data status) =
      .emit ⟨cmd, status, data⟩ (10 + data.length) := by
  rw [makeDataFrame_eq_wireFrame,
    parseStep_wireFrame _ _ _ _ _ _ _ (be16_split data.length hl),
    be16_split cmd hc, be16_split status hs]

/-- Decoding an encoded frame yields exactly that frame and an empty buffer. -/
theorem parseFrames_makeDataFrame (cmd : Nat) (data : List Nat) (status : Nat)
    (hc : cmd < 65536) (hs : status < 65536) (hl : data.length < 65536) :
    parseFrames (makeDataFrame cmd data status) = ([⟨cmd, status, data⟩], []) := by
  rw [parseFrames, makeDataFrame_length,
    (by omega : 10 + data.length = (9 + data.length) + 1), parseFramesAux_succ,
    parseStep_makeDataFrame cmd data status hc hs hl]
  simp only []
  rw [List.drop_eq_nil_of_le (by rw [makeDataFrame_length]), parseFramesAux_nil]

/-- Decoding with any prefix of non-SOF garbage drops exactly the garbage
bytes one at a time and then consumes the encoded frame. -/
theorem parseFrames_after_garbage (cmd status : Nat) (data : List Nat) (g : List Nat)
    (hg : ∀ b ∈ g, b ≠ SOF)
    (hc : cmd < 65536) (hs : status < 65536) (hl : data.length < 65536) :
    parseFrames (g ++ makeDataFrame cmd data status) = ([⟨cmd, status, data⟩], []) := by
  induction g with
  | nil => simpa [parseFrames] using parseFrames_makeDataFrame cmd data status hc hs hl
  | cons b t ih =>
    have hb : b ≠ SOF := hg b (List.mem_cons_self b t)
    have hstep : parseStep (b :: (t ++ makeDataFrame cmd data status)) = .drop := by
      rw [parseStep]
      rw [if_neg (by simp [makeDataFrame_length]; omega :
        ¬ (b :: (t ++ makeDataFrame cmd data status)).length < 9)]
      rw [if_pos (by simpa using hb)]
    have := ih (fun x hx => hg x (List.mem_cons_of_mem b hx))
    calc parseFrames ((b :: t) ++ makeDataFrame cmd data status)
        = parseFramesAux ((t ++ makeDataFrame cmd data status).length + 1)
            (b :: (t ++ makeDataFrame cmd data status)) := by
          simp [parseFrames]
      _ = parseFramesAux (t ++ makeDataFrame cmd data status).length
            (t ++ makeDataFrame cmd data status) := by
          rw [parseFramesAux_succ, hstep]; rfl
      _ = ([⟨cmd, status, data⟩], []) := this

/-- Well-formedness of a buffered frame candidate, as the spec states it:
the SOF marker is present and all three LRC checksum bytes validate against
their covered prefixes, with the whole frame buffered. -/
def framePasses (buf : List Nat) : Prop :=
  9 ≤ buf.length ∧ byteAt buf 0 = SOF ∧ byteAt buf 1 = lrcCalc (buf.take 1) ∧
  9 + headerDataLen buf + 1 ≤ buf.length ∧
  byteAt buf 8 = lrcCalc (buf.take 8) ∧
  byteAt buf (9 + headerDataLen buf) = lrcCalc (buf.take (9 + headerDataLen buf))

instance (buf : List Nat) : Decidable (framePasses buf) := by
  unfold framePasses; infer_instance

/-- A candidate was examined and some validation failed: the header is
buffered and either the SOF or LRC1 check fails, or the complete frame is
buffered and the LRC2 or LRC3 check fails. -/
def checkFailed (buf : List Nat) : Prop :=
  9 ≤ buf.length ∧
  (byteAt buf 0 ≠ SOF ∨ byteAt buf 1 ≠ lrcCalc (buf.take 1) ∨
    (9 + headerDataLen buf + 1 ≤ buf.length ∧
      (byteAt buf 8 ≠ lrcCalc (buf.take 8) ∨
       byteAt buf (9 + headerDataLen buf) ≠ lrcCalc (buf.take (9 + headerDataLen buf)))))

instance (buf : List Nat) : Decidable (checkFailed buf) := by
  unfold checkFailed; infer_instance

/-- A decoder step only emits a frame when every well-formedness check
passes, and the emitted frame is the one parsed at the buffer head. -/
theorem parseStep_emit_sound (buf : List Nat) (f : Frame) (n : Nat)
    (h : parseStep buf = .emit f n) :
    framePasses buf ∧ f = frameAt buf ∧ n = 9 + headerDataLen buf + 1 := by
  simp only [parseStep] at h
  split_ifs at h with h1 h2 h3 h4 h5 h6 <;> try cases h
  push_neg at h1 h2 h3 h4 h5 h6
  exact ⟨⟨by omega, h2, h3, by omega, h5, h6⟩, rfl, rfl⟩

/-- A failed validation makes the decoder step discard exactly one byte. -/
theorem parseStep_drop_of_checkFailed (buf : List Nat) (h : checkFailed buf) :
    parseStep buf = .drop := by
  obtain ⟨h9, hor⟩ := h
  simp only [parseStep]
  split_ifs with h1 h2 h3 h4 h5 h6
  · omega
  · rfl
  · rfl
  · push_neg at h2 h3
    rcases hor with hbad | hbad | ⟨hfit, _⟩
    · exact absurd h2 hbad
    · exact absurd h3 hbad
    · omega
  · rfl
  · rfl
  · push_neg at h2 h3 h5 h6
    rcases hor with hbad | hbad | ⟨_, hbad | hbad⟩
    · exact absurd h2 hbad
    · exact absurd h3 hbad
    · exact absurd h5 hbad
    · exact absurd h6 hbad

theorem parseFrames_drop_of_checkFailed (buf : List Nat) (h : checkFailed buf) :
    parseFrames buf = parseFrames (buf.drop 1) := by
  have hstep := parseStep_drop_of_checkFailed buf h
  cases buf with
  | nil => exact absurd h.1 (by simp)
  | cons a t =>
    calc parseFrames (a :: t)
        = parseFramesAux (t.length + 1) (a :: t) := rfl
      _ = parseFramesAux t.length t := by rw [parseFramesAux_succ, hstep]; rfl
      _ = parseFrames ((a :: t).drop 1) := rfl

/-- Every frame the decoder loop emits was parsed at some suffix of the
input buffer on which all well-formedness checks pass. -/
theorem parseFramesAux_sound (fuel : Nat) :
    ∀ buf f, f ∈ (parseFramesAux fuel buf).1 →
      ∃ k, framePasses (buf.drop k) ∧ f = frameAt (buf.drop k) := by
  induction fuel with
  | zero =>
    intro buf f hf
    simp [parseFramesAux] at hf
  | succ fuel ih =>
    intro buf f hf
    rw [parseFramesAux_succ] at hf
    cases hstep : parseStep buf with
    | needMore => rw [hstep] at hf; simp at hf
    | drop =>
      rw [hstep] at hf
      obtain ⟨k, hk1, hk2⟩ := ih (buf.drop 1) f hf
      refine ⟨1 + k, ?_, ?_⟩
      · rwa [List.drop_drop] at hk1
      · rwa [List.drop_drop] at hk2
    | emit f0 n =>
      rw [hstep] at hf
      simp only [List.mem_cons] at hf
      rcases hf with rfl | hf
      · obtain ⟨hpass, hfr, _⟩ := parseStep_emit_sound buf _ n hstep
        exact ⟨0, by simpa using hpass, by simpa using hfr⟩
      · obtain ⟨k, hk1, hk2⟩ := ih (buf.drop n) f hf
        refine ⟨n + k, ?_, ?_⟩
        · rwa [List.drop_drop] at hk1
        · rwa [List.drop_drop] at hk2

/-- C1: for every commandId in [0,65535], status in [0,65535], and payload of
0..4096 bytes, decoding the byte array produced by `makeDataFrame` from an
empty buffer emits exactly one frame with that command, status and payload,
and leaves the buffer empty. -/
theorem frame_roundtrip (cmd status : Nat) (payload : List Nat)
    (hc : cmd ≤ 65535) (hs : status ≤ 65535) (hp : payload.length ≤ 4096)
    (hbytes : ∀ b ∈ payload, b < 256) :
    parseFrames (makeDataFrame cmd payload status) = ([⟨cmd, status, payload⟩], []) :=
  parseFrames_makeDataFrame cmd payload status (by omega) (by omega) (by omega)

theorem frame_roundtrip_witness :
    parseFrames (makeDataFrame 1025 [7, 200] 104) = ([⟨1025, 104, [7, 200]⟩], []) :=
  frame_roundtrip 1025 104 [7, 200] (by omega) (by omega) (by simp) (by decide)

/-- C2 counterexample: nine garbage bytes that mimic a frame header with a
huge LEN field (and a valid LRC1 and LRC2) make the decoder wait for more
data instead of resynchronizing, so prepending them to a valid encoded frame
emits zero frames and discards zero bytes, refuting the claim that arbitrary
garbage prefixes are discarded and the valid frame emitted. -/
theorem resync_counterexample :
    parseFrames ([0x11, 0xEF, 0, 0, 0, 0, 0xFF, 0xFF, 0x02] ++ makeDataFrame 0 [] 0) =
      ([], [0x11, 0xEF, 0, 0, 0, 0, 0xFF, 0xFF, 0x02] ++ makeDataFrame 0 [] 0) := by
  decide

/-- C2 (amended): for every valid encoded frame and every garbage prefix none
of whose bytes equals the SOF marker 0x11, the decoder emits exactly the one
valid frame and discards exactly the garbage prefix (the final buffer is
empty, so exactly the garbage bytes plus the frame bytes were consumed). -/
theorem resync_no_sof_garbage (g : List Nat) (cmd status : Nat) (payload : List Nat)
    (hg : ∀ b ∈ g, b ≠ 0x11)
    (hc : cmd ≤ 65535) (hs : status ≤ 65535) (hp : payload.length ≤ 4096)
    (hbytes : ∀ b ∈ payload, b < 256) :
    parseFrames (g ++ makeDataFrame cmd payload status) = ([⟨cmd, status, payload⟩], []) :=
  parseFrames_after_garbage cmd status payload g hg (by omega) (by omega) (by omega)

theorem resync_no_sof_garbage_witness :
    parseFrames ([0xAA, 0x00, 0x37] ++ makeDataFrame 2000 [1, 2, 3] 104) =
      ([⟨2000, 104, [1, 2, 3]⟩], []) :=
  resync_no_sof_garbage [0xAA, 0x00, 0x37] 2000 104 [1, 2, 3]
    (by decide) (by omega) (by omega) (by simp) (by decide)

/-- C3: every frame emitted by the streaming decoder comes from a suffix of
the input buffer whose SOF byte and all three LRC checksum bytes validate
against their covered prefixes (so a candidate failing any check is never
surfaced), and whenever a buffered candidate fails a check, the decoder
retries after discarding exactly one leading byte. -/
theorem decoder_wellformed (buf : List Nat) :
    (∀ f ∈ (parseFrames buf).1, ∃ k, framePasses (buf.drop k) ∧ f = frameAt (buf.drop k)) ∧
    (checkFailed buf → parseFrames buf = parseFrames (buf.drop 1)) :=
  ⟨fun f hf => parseFramesAux_sound buf.length buf f hf,
   fun h => parseFrames_drop_of_checkFailed buf h⟩

theorem decoder_wellformed_witness :
    checkFailed (0x22 :: makeDataFrame 5 [] 0) ∧
    parseFrames (0x22 :: makeDataFrame 5 [] 0) =
      parseFrames ((0x22 :: makeDataFrame 5 [] 0).drop 1) ∧
    (∃ k, framePasses ((0x22 :: makeDataFrame 5 [] 0).drop k) ∧
      (⟨5, 0, []⟩ : Frame) = frameAt ((0x22 :: makeDataFrame 5 [] 0).drop k)) :=
  ⟨by decide,
   (decoder_wellformed (0x22 :: makeDataFrame 5 [] 0)).2 (by decide),
   (decoder_wellformed (0x22 :: makeDataFrame 5 [] 0)).1 ⟨5, 0, []⟩ (by decide)⟩

/-! ## RFID dump analyzer -/

/-- Entry of the `tagSignatures` table: object key, byte size, display name. -/
structure TagSig where
  key : String
  size : Nat
  name : String
deriving DecidableEq, Repr

/-- The `tagSignatures` table in its source (insertion) order, which is the
iteration order of `Object.entries` used by `detectTagType`. -/
def tagSignatures : List TagSig :=
  [⟨"ntag210", 80, "NTAG 210"⟩, ⟨"ntag212", 164, "NTAG 212"⟩,
   ⟨"ntag213", 180, "NTAG 213"⟩, ⟨"ntag215", 540, "NTAG 215"⟩,
   ⟨"ntag216", 924, "NTAG 216"⟩, ⟨"mifareMini", 320, "Mifare Mini"⟩,
   ⟨"mifareClassic1K", 1024, "Mifare Classic 1K"⟩,
   ⟨"mifareClassic2K", 2048, "Mifare Classic 2K"⟩,
   ⟨"mifareClassic4K", 4096, "Mifare Classic 4K"⟩,
   ⟨"mifareUltralight", 64, "Mifare Ultralight"⟩,
   ⟨"mifareUltralightC", 192, "Mifare Ultralight C"⟩,
   ⟨"em410x", 5, "EM410X"⟩, ⟨"t5577", 264, "T5577"⟩, ⟨"hidProx", 96, "HID Prox"⟩]

/-- Classification triple produced by `detectTagType` (tag type and frequency
stay unset, `null`, when no rule applies). -/
structure DetectResult where
  tagType : Option String
  frequency : Option String
  confidence : Nat
deriving DecidableEq, Repr

/-- The `startsWith` test on strings, computed on the character lists. -/
def strStartsWith (s pre : String) : Bool :=
  pre.data.isPrefixOf s.data

/-- Frequency assigned on an exact-size table hit, keyed by signature name
prefix exactly as in the source. -/
def sigFrequency (key : String) : Option String :=
  if strStartsWith key "ntag" || strStartsWith key "mifare" then some "HF"
  else if strStartsWith key "em" || strStartsWith key "t55" || strStartsWith key "hid" then some "LF"
  else none

/-- Classifier `detectTagType`: first an exact byte-size match against the
signature table (confidence 90), then the size-range heuristics. -/
def detectTagType (data : List Nat) : DetectResult :=
  let size := data.length
  match tagSignatures.find? (fun sig => sig.size == size) with
  | some sig => ⟨some sig.name, sigFrequency sig.key, 90⟩
  | none =>
    if size = 5 then ⟨some "EM410X", some "LF", 95⟩
    else if 64 ≤ size && size ≤ 1024 then ⟨some "Unknown HF/NFC", some "HF", 50⟩
    else if size < 64 then ⟨some "Unknown LF", some "LF", 50⟩
    else ⟨some "Unknown", none, 0⟩

/-- Result of the `analyze` entry point at the level the claims exercise:
either the explicit empty-input error object, or a report carrying the
classification (family-specific detail extraction is modelled separately by
`checkNDEF` and `analyzeEM410X`). -/
inductive AnalyzeOutcome where
  | error (msg : String)
  | report (fileSize : Nat) (det : DetectResult)
deriving DecidableEq, Repr

/-- The `analyze` entry point on a byte buffer or a `null` input: a missing
or empty buffer short-circuits to an error object and nothing else runs. -/
def analyze (input : Option (List Nat)) : AnalyzeOutcome :=
  match input with
  | none => .error "No data provided or file is empty"
  | some data =>
    if data.length = 0 then .error "No data provided or file is empty"
    else .report data.length (detectTagType data)

/-- C4 counterexample: the all-zero 5-byte buffer is classified with
confidence 90 (the exact-size `em410x` table entry matches before the
heuristic confidence-95 branch can run), refuting the claimed confidence 95. -/
theorem classify_five_byte_counterexample :
    (detectTagType [0, 0, 0, 0, 0]).confidence = 90 ∧
    (detectTagType [0, 0, 0, 0, 0]).confidence ≠ 95 := by decide

/-- C4 (amended): every 5-byte buffer is classified as tag type EM410X,
frequency LF, with confidence 90 (by the exact-size table match, which
precedes the unreachable heuristic confidence-95 branch), and a null or
0-byte input makes `analyze` return an explicit error result (it is a total
function, so it never throws). -/
theorem classify_small_buffers (data : List Nat) (h5 : data.length = 5) :
    detectTagType data = ⟨some "EM410X", some "LF", 90⟩ ∧
    analyze none = .error "No data provided or file is empty" ∧
    analyze (some ([] : List Nat)) = .error "No data provided or file is empty" := by
  refine ⟨?_, rfl, rfl⟩
  simp only [detectTagType, h5]
  decide

theorem classify_small_buffers_witness :
    detectTagType [9, 9, 9, 9, 9] = ⟨some "EM410X", some "LF", 90⟩ ∧
    analyze none = .error "No data provided or file is empty" ∧
    analyze (some ([] : List Nat)) = .error "No data provided or file is empty" :=
  classify_small_buffers [9, 9, 9, 9, 9] (by decide)

/-- JavaScript 32-bit signed integer conversion, the semantics of the
bitwise shift and or operators applied in `analyzeEM410X`. -/
def jsToInt32 (n : Nat) : Int :=
  let m := n % 4294967296
  if m < 2147483648 then (m : Int) else (m : Int) - 4294967296

/-- Uppercase hexadecimal digit (the source produces lowercase via
`toString(16)` and then applies `toUpperCase`). -/
def hexDigitUpper (n : Nat) : Char :=
  if n < 10 then Char.ofNat (48 + n) else Char.ofNat (55 + n)

/-- A byte rendered as two uppercase hex digits (`toString(16).padStart(2)`
followed by the final `toUpperCase`). -/
def hexByteUpper (b : Nat) : String :=
  String.mk [hexDigitUpper (b / 16 % 16), hexDigitUpper (b % 16)]

/-- A byte rendered in decimal, zero-padded to 3 digits (`padStart(3, 0)`). -/
def dec3 (b : Nat) : String :=
  let s := toString b
  String.mk (List.replicate (3 - s.length) (Char.ofNat 48)) ++ s

/-- Hex rendering of the signed `customerId` exactly as JavaScript produces
it: `toString(16)` of a negative number is a minus sign followed by the hex
digits of the magnitude; then `padStart(8)` and `toUpperCase`. -/
def customerIdHexString (i : Int) : String :=
  let digits := fun (n : Nat) => String.mk ((Nat.toDigits 16 n).map Char.toUpper)
  let s := if i < 0 then "-" ++ digits i.natAbs else digits i.toNat
  String.mk (List.replicate (8 - s.length) (Char.ofNat 48)) ++ s

/-- Structured fields produced by `analyzeEM410X`. -/
structure EM410XDetails where
  idHex : String
  idDecimal : String
  version : Nat
  customerId : Int
  customerIdHex : String
deriving DecidableEq, Repr

/-- The EM410x analyzer: requires exactly 5 bytes (otherwise only a warning
is recorded, modelled as `none`); byte 0 is the version, bytes 1..4 form the
customer id via `(b1 << 24) | (b2 << 16) | (b3 << 8) | b4`, which in
JavaScript is 32-bit signed arithmetic. -/
def analyzeEM410X (data : List Nat) : Option EM410XDetails :=
  if data.length ≠ 5 then none
  else some
    { idHex := String.join (data.map hexByteUpper)
      idDecimal := String.intercalate "," (data.map dec3)
      version := byteAt data 0
      customerId := jsToInt32
        (byteAt data 1 * 16777216 + byteAt data 2 * 65536 + byteAt data 3 * 256 + byteAt data 4)
      customerIdHex := customerIdHexString (jsToInt32
        (byteAt data 1 * 16777216 + byteAt data 2 * 65536 + byteAt data 3 * 256 + byteAt data 4)) }

/-- C10: evaluation of the EM410x analyzer at the failing input
`[0x00, 0x80, 0x00, 0x00, 0x00]`.  The claim requires the customer id to be
the unsigned big-endian value 2147483648; the code computes it with
JavaScript signed 32-bit operators and produces -2147483648, and the
supposedly 8-digit hex rendering degenerates to a signed string. -/
theorem em410x_signed_customer_id :
    analyzeEM410X [0, 128, 0, 0, 0] = some
      { idHex := "0080000000"
        idDecimal := "000,128,000,000,000"
        version := 0
        customerId := -2147483648
        customerIdHex := "-80000000" } ∧
    ¬ (0 ≤ (jsToInt32 (128 * 16777216)) ∧ (jsToInt32 (128 * 16777216)) < 4294967296) := by
  constructor
  · decide
  · decide

/-! ## NDEF TLV parsing -/

theorem byteAt_eq_getElem (l : List Nat) (a : Nat) (h : a < l.length) :
    byteAt l a = l[a] := by
  simp [byteAt, List.getD, List.getElem?_eq_getElem h]

theorem drop_take_eq_map (l : List Nat) :
    ∀ (n a : Nat), a + n ≤ l.length →
      (l.drop a).take n = (List.range' a n).map (fun i => byteAt l i) := by
  intro n
  induction n with
  | zero => intro a _; simp
  | succ n ih =>
    intro a h
    have ha : a < l.length := by omega
    rw [← List.getElem_cons_drop l a ha, List.take_succ_cons, List.range'_succ,
      List.map_cons, ih (a + 1) (by omega), byteAt_eq_getElem l a ha]

theorem listSlice_eq_map (l : List Nat) (a b : Nat) (hab : a ≤ b) (hb : b ≤ l.length) :
    listSlice l a b = (List.range' a (b - a)).map (fun i => byteAt l i) :=
  drop_take_eq_map l (b - a) a (by omega)

/-- UTF-8 decoding of a byte sequence, modelling `TextDecoder` in its default
non-fatal mode: well-formed sequences decode to their code points and a
malformed or truncated sequence yields the U+FFFD replacement character. -/
def utf8DecodeAux : Nat → List Nat → List Char
  | 0, _ => []
  | _ + 1, [] => []
  | fuel + 1, b :: rest =>
    if b < 128 then Char.ofNat b :: utf8DecodeAux fuel rest
    else if 194 ≤ b ∧ b ≤ 223 then
      match rest with
      | c1 :: rest2 =>
        if 128 ≤ c1 ∧ c1 ≤ 191 then
          Char.ofNat ((b - 192) * 64 + (c1 - 128)) :: utf8DecodeAux fuel rest2
        else Char.ofNat 65533 :: utf8DecodeAux fuel rest
      | [] => [Char.ofNat 65533]
    else if 224 ≤ b ∧ b ≤ 239 then
      match rest with
      | c1 :: c2 :: rest3 =>
        if (128 ≤ c1 ∧ c1 ≤ 191) ∧ (128 ≤ c2 ∧ c2 ≤ 191) ∧
            (b = 224 → 160 ≤ c1) ∧ (b = 237 → c1 ≤ 159) then
          Char.ofNat ((b - 224) * 4096 + (c1 - 128) * 64 + (c2 - 128)) ::
            utf8DecodeAux fuel rest3
        else Char.ofNat 65533 :: utf8DecodeAux fuel rest
      | _ => [Char.ofNat 65533]
    else if 240 ≤ b ∧ b ≤ 244 then
      match rest with
      | c1 :: c2 :: c3 :: rest4 =>
        if (128 ≤ c1 ∧ c1 ≤ 191) ∧ (128 ≤ c2 ∧ c2 ≤ 191) ∧ (128 ≤ c3 ∧ c3 ≤ 191) ∧
            (b = 240 → 144 ≤ c1) ∧ (b = 244 → c1 ≤ 143) then
          Char.ofNat ((b - 240) * 262144 + (c1 - 128) * 4096 + (c2 - 128) * 64 + (c3 - 128)) ::
            utf8DecodeAux fuel rest4
        else Char.ofNat 65533 :: utf8DecodeAux fuel rest
      | _ => [Char.ofNat 65533]
    else Char.ofNat 65533 :: utf8DecodeAux fuel rest

/-- UTF-8 text decode of a payload (each decode step consumes at least one
byte, so fuel equal to the length is always sufficient). -/
def utf8Decode (bytes : List Nat) : String :=
  String.mk (utf8DecodeAux bytes.length bytes)

/-- The `String.fromCharCode` rendering of a byte list. -/
def fromCharCodes (bytes : List Nat) : String :=
  String.mk (bytes.map Char.ofNat)

/-- One parsed NDEF record as produced by `parseNDEF`: header flags, TNF,
lengths, and the opportunistically extracted type, payload and text. -/
structure NdefRecord where
  messageBegin : Bool
  messageEnd : Bool
  shortRecord : Bool
  typeNameFormat : Nat
  typeLength : Nat
  payloadLength : Nat
  type : Option String
  payload : Option (List Nat)
  payloadText : Option String
deriving DecidableEq, Repr

/-- NDEF-related analysis fields recorded by `checkNDEF`. -/
structure NdefDetails where
  hasNDEF : Bool
  ndefOffset : Option Nat
  ndefLength : Option Nat
  ndef : Option NdefRecord
deriving DecidableEq, Repr

/-- Parser `parseNDEF` for one NDEF record: header byte (flags and 3-bit
TNF), type length, payload length, then the type and payload extracted only
when the slice is long enough, the payload text decoded as UTF-8. -/
def parseNDEF (ndefData : List Nat) : Option NdefRecord :=
  if ndefData.length < 3 then none
  else
    let header := byteAt ndefData 0
    let typeLength := byteAt ndefData 1
    let payloadLength := byteAt ndefData 2
    let type := if 0 < typeLength ∧ 3 + typeLength ≤ ndefData.length
      then some (fromCharCodes (listSlice ndefData 3 (3 + typeLength))) else none
    let payload := if 0 < payloadLength ∧ 3 + typeLength + payloadLength ≤ ndefData.length
      then some (listSlice ndefData (3 + typeLength) (3 + typeLength + payloadLength)) else none
    some
      { messageBegin := byteAt ndefData 0 &&& 128 != 0
        messageEnd := byteAt ndefData 0 &&& 64 != 0
        shortRecord := byteAt ndefData 0 &&& 16 != 0
        typeNameFormat := header &&& 7
        typeLength := typeLength
        payloadLength := payloadLength
        type := type
        payload := payload
        payloadText := payload.map utf8Decode }

/-- Scan for the NDEF message TLV type byte 0x03, starting at byte 16 and
stopping before `min(length - 2, 100)` exactly as the source loop does. -/
def findNdefOffset (data : List Nat) : Option Nat :=
  (List.range' 16 (min (data.length - 2) 100 - 16)).find? (fun i => byteAt data i == 3)

/-- The `checkNDEF` pass: records whether a TLV was found, its offset and
length byte, and parses the record when the TLV value fits in the buffer. -/
def checkNDEF (data : List Nat) : NdefDetails :=
  match findNdefOffset data with
  | some off =>
    { hasNDEF := true
      ndefOffset := some off
      ndefLength := some (byteAt data (off + 1))
      ndef := if off + 2 + byteAt data (off + 1) ≤ data.length
        then parseNDEF (listSlice data (off + 2) (off + 2 + byteAt data (off + 1)))
        else none }
  | none => { hasNDEF := false, ndefOffset := none, ndefLength := none, ndef := none }

theorem checkNDEF_eq_of_found (data : List Nat) (off : Nat)
    (h : findNdefOffset data = some off) :
    checkNDEF data =
      { hasNDEF := true
        ndefOffset := some off
        ndefLength := some (byteAt data (off + 1))
        ndef := if off + 2 + byteAt data (off + 1) ≤ data.length
          then parseNDEF (listSlice data (off + 2) (off + 2 + byteAt data (off + 1)))
          else none } := by
  unfold checkNDEF
  rw [h]

/-- The buffer from the claimed NDEF vector: 64 bytes (classified HF by the
exact-size table), TLV type 0x03 at offset 20, length byte 0x05, record
header 0xD1 (TNF 1), type length 1, payload length 3, type T, payload hi. -/
def ndefVectorLen5 : List Nat :=
  List.replicate 20 0 ++ [3, 5, 209, 1, 3, 84, 104, 105, 33] ++ List.replicate 35 0

set_option maxHeartbeats 2000000 in
/-- C5 counterexample: with the claimed TLV length byte 0x05 the record value
is truncated to 5 bytes (header, two lengths, type, one payload byte), so the
parser extracts the type but never reaches the payload: `payloadText` is
absent instead of the claimed text. -/
theorem ndef_tlv_truncation_counterexample :
    (detectTagType ndefVectorLen5).frequency = some "HF" ∧
    (checkNDEF ndefVectorLen5).ndefOffset = some 20 ∧
    (checkNDEF ndefVectorLen5).ndef.map
      (fun r => (r.typeNameFormat, r.type, r.payloadText)) = some (1, some "T", none) := by
  refine ⟨by decide, by decide, by decide⟩

set_option maxHeartbeats 2000000 in
/-- C5 (amended): for any HF-classified buffer of at least 29 bytes whose
bytes 16..19 are not 0x03, with the TLV type byte 0x03 at offset 20, length
byte 0x07 (the actual size of the record: header, two length bytes, one type
byte, three payload bytes), an NDEF header byte with TNF 1, type length 1,
payload length 3, type byte 84 and payload bytes 104 105 33, the decoder
produces a record with typeNameFormat 1, type T and payloadText hi-bang. -/
theorem ndef_end_to_end (data : List Nat)
    (hHF : (detectTagType data).frequency = some "HF")
    (hlen : 29 ≤ data.length)
    (hpre : ∀ i, 16 ≤ i → i < 20 → byteAt data i ≠ 3)
    (h20 : byteAt data 20 = 3) (h21 : byteAt data 21 = 7)
    (h22 : byteAt data 22 &&& 7 = 1)
    (h23 : byteAt data 23 = 1) (h24 : byteAt data 24 = 3)
    (h25 : byteAt data 25 = 84)
    (h26 : byteAt data 26 = 104) (h27 : byteAt data 27 = 105) (h28 : byteAt data 28 = 33) :
    ∃ r, (checkNDEF data).ndef = some r ∧ r.typeNameFormat = 1 ∧
      r.type = some "T" ∧ r.payloadText = some "hi!" := by
  have hcount : 5 ≤ min (data.length - 2) 100 - 16 := by omega
  have hrange : List.range' 16 (min (data.length - 2) 100 - 16) =
      16 :: 17 :: 18 :: 19 :: 20 :: List.range' 21 (min (data.length - 2) 100 - 16 - 5) := by
    rw [show min (data.length - 2) 100 - 16 = (min (data.length - 2) 100 - 16 - 5) + 5 by omega,
      ← List.range'_append 16 5 (min (data.length - 2) 100 - 16 - 5) 1]
    rfl
  have hoff : findNdefOffset data = some 20 := by
    rw [findNdefOffset, hrange,
      List.find?_cons_of_neg _ (by simp [hpre 16 (by omega) (by omega)]),
      List.find?_cons_of_neg _ (by simp [hpre 17 (by omega) (by omega)]),
      List.find?_cons_of_neg _ (by simp [hpre 18 (by omega) (by omega)]),
      List.find?_cons_of_neg _ (by simp [hpre 19 (by omega) (by omega)]),
      List.find?_cons_of_pos _ (by simp [h20])]
  have hsl : listSlice data 22 29 =
      [byteAt data 22, byteAt data 23, byteAt data 24, byteAt data 25,
       byteAt data 26, byteAt data 27, byteAt data 28] := by
    rw [listSlice_eq_map data 22 29 (by omega) (by omega),
      show (29 - 22 : Nat) = 7 from rfl,
      show List.range' 22 7 = [22, 23, 24, 25, 26, 27, 28] from rfl]
    rfl
  have hnd : (checkNDEF data).ndef =
      parseNDEF [byteAt data 22, byteAt data 23, byteAt data 24, byteAt data 25,
        byteAt data 26, byteAt data 27, byteAt data 28] := by
    rw [checkNDEF_eq_of_found data 20 hoff]
    rw [show (20 : Nat) + 1 = 21 from rfl, h21,
      show (20 : Nat) + 2 + 7 = 29 from rfl, if_pos hlen,
      show (20 : Nat) + 2 = 22 from rfl, hsl]
  rw [h23, h24, h25, h26, h27, h28] at hnd
  have hparse : parseNDEF [byteAt data 22, 1, 3, 84, 104, 105, 33] = some
      { messageBegin := byteAt data 22 &&& 128 != 0
        messageEnd := byteAt data 22 &&& 64 != 0
        shortRecord := byteAt data 22 &&& 16 != 0
        typeNameFormat := byteAt data 22 &&& 7
        typeLength := 1
        payloadLength := 3
        type := some "T"
        payload := some [104, 105, 33]
        payloadText := some "hi!" } := rfl
  rw [hparse] at hnd
  exact ⟨_, hnd, h22, rfl, rfl⟩

theorem ndef_end_to_end_witness :
    ∃ r, (checkNDEF (List.replicate 20 0 ++ [3, 7, 209, 1, 3, 84, 104, 105, 33] ++
        List.replicate 35 0)).ndef = some r ∧
      r.typeNameFormat = 1 ∧ r.type = some "T" ∧ r.payloadText = some "hi!" :=
  ndef_end_to_end _ (by decide) (by decide)
    (by decide) (by decide) (by decide) (by decide) (by decide) (by decide)
    (by decide) (by decide) (by decide) (by decide)

/-! ## Bulk chunked slot read (NTAG page read loop of the slot save command) -/

/-- Result of one `device.cmd` round trip as seen by the slot code: the
resolved response frame (status and data), or a rejected promise. -/
inductive CmdOutcome where
  | resp (status : Nat) (data : List Nat)
  | exn
deriving DecidableEq, Repr

/-- How the chunked read loop ends: completed with the reassembled bytes,
aborted by the logged error and early return on a bad chunk status, or
aborted by an exception propagating out of the loop. -/
inductive SaveOutcome where
  | ok (fileData : List Nat)
  | errorLogged (startIndex count status : Nat)
  | thrown
deriving DecidableEq, Repr

/-- Start indices visited by the loop
`for (pageIndex = 0; pageIndex < totalPages; pageIndex += 32)`:
exactly `0, 32, ...` with `ceil(totalPages / 32)` entries. -/
def chunkStarts (totalPages : Nat) : List Nat :=
  (List.range ((totalPages + 31) / 32)).map (· * 32)

/-- Body of the chunked read loop: for each start index request
`min(32, remaining)` units; a non-success status (not 0x68) logs an error
and returns early; otherwise the response bytes are appended to the
accumulator.  The second component is the list of `(startIndex, count)`
requests actually issued. -/
def ntagReadGo (resp : Nat → Nat → CmdOutcome) (totalPages : Nat) :
    List Nat → List Nat → SaveOutcome × List (Nat × Nat)
  | [], acc => (.ok acc, [])
  | p :: rest, acc =>
    let cnt := min 32 (totalPages - p)
    match resp p cnt with
    | .exn => (.thrown, [(p, cnt)])
    | .resp s d =>
      if s = 0x68 then
        let r := ntagReadGo resp totalPages rest (acc ++ d)
        (r.1, (p, cnt) :: r.2)
      else (.errorLogged p cnt s, [(p, cnt)])

/-- The chunked NTAG page read of the slot save command, against a response
oracle `resp startIndex count`. -/
def ntagSaveRead (resp : Nat → Nat → CmdOutcome) (totalPages : Nat) :
    SaveOutcome × List (Nat × Nat) :=
  ntagReadGo resp totalPages (chunkStarts totalPages) []

/-- C6: reading 135 page units with the 32-units-per-request cap issues
exactly the five chunk requests (0,32) (32,32) (64,32) (96,32) (128,7), and
when every response carries success status and exactly count*4 bytes the
reassembled buffer is 540 bytes with chunk k occupying offset k*32*4. -/
theorem bulk_read_chunking (resp : Nat → Nat → CmdOutcome)
    (hok : ∀ i c, ∃ d, resp i c = .resp 104 d ∧ d.length = c * 4) :
    (ntagSaveRead resp 135).2 = [(0, 32), (32, 32), (64, 32), (96, 32), (128, 7)] ∧
    (ntagSaveRead resp 135).2.length = (135 + 31) / 32 ∧
    ∃ fileData, (ntagSaveRead resp 135).1 = .ok fileData ∧ fileData.length = 540 ∧
      ∀ k, k < 5 → ∃ d, resp (k * 32) (min 32 (135 - k * 32)) = .resp 104 d ∧
        listSlice fileData (k * 32 * 4) (k * 32 * 4 + min 32 (135 - k * 32) * 4) = d := by
  obtain ⟨d0, h0, l0⟩ := hok 0 32
  obtain ⟨d1, h1, l1⟩ := hok 32 32
  obtain ⟨d2, h2, l2⟩ := hok 64 32
  obtain ⟨d3, h3, l3⟩ := hok 96 32
  obtain ⟨d4, h4, l4⟩ := hok 128 7
  have hrun : ntagSaveRead resp 135 =
      (.ok (d0 ++ (d1 ++ (d2 ++ (d3 ++ d4)))),
       [(0, 32), (32, 32), (64, 32), (96, 32), (128, 7)]) := by
    rw [ntagSaveRead, show chunkStarts 135 = [0, 32, 64, 96, 128] from rfl]
    simp [ntagReadGo, h0, h1, h2, h3, h4]
  refine ⟨by rw [hrun], by rw [hrun]; rfl, d0 ++ (d1 ++ (d2 ++ (d3 ++ d4))), by rw [hrun],
    by simp [l0, l1, l2, l3, l4], ?_⟩
  intro k hk
  have hslice : ∀ pre rest : List Nat, listSlice (pre ++ rest) pre.length
      (pre.length + rest.length) = rest := by
    intro pre rest
    rw [listSlice, List.drop_left, Nat.add_sub_cancel_left, List.take_length]
  interval_cases k
  · refine ⟨d0, h0, ?_⟩
    have := hslice [] (d0 ++ (d1 ++ (d2 ++ (d3 ++ d4))))
    simp only [List.nil_append, List.length_nil] at this
    rw [listSlice, List.drop_zero] at this ⊢
    simp only [Nat.zero_mul, Nat.zero_add, Nat.sub_zero] at this ⊢
    rw [show min 32 (135 - 0 * 32) * 4 = 128 from rfl]
    rw [List.take_append_of_le_length (by omega), List.take_all_of_le (by omega)]
  · refine ⟨d1, h1, ?_⟩
    rw [listSlice, show (1 * 32 * 4 : Nat) = 128 from rfl,
      show (128 + min 32 (135 - 1 * 32) * 4 - 128 : Nat) = 128 from rfl,
      List.drop_left' l0, List.take_append_of_le_length (by omega),
      List.take_all_of_le (by omega)]
  · refine ⟨d2, h2, ?_⟩
    rw [listSlice, show (2 * 32 * 4 : Nat) = 256 from rfl,
      show (256 + min 32 (135 - 2 * 32) * 4 - 256 : Nat) = 128 from rfl,
      show (256 : Nat) = 128 + 128 from rfl, ← List.drop_drop,
      List.drop_left' l0, List.drop_left' l1,
      List.take_append_of_le_length (by omega), List.take_all_of_le (by omega)]
  · refine ⟨d3, h3, ?_⟩
    rw [listSlice, show (3 * 32 * 4 : Nat) = 384 from rfl,
      show (384 + min 32 (135 - 3 * 32) * 4 - 384 : Nat) = 128 from rfl,
      show (384 : Nat) = 128 + (128 + 128) from rfl, ← List.drop_drop, ← List.drop_drop,
      List.drop_left' l0, List.drop_left' l1, List.drop_left' l2,
      List.take_append_of_le_length (by omega), List.take_all_of_le (by omega)]
  · refine ⟨d4, h4, ?_⟩
    rw [listSlice, show (4 * 32 * 4 : Nat) = 512 from rfl,
      show (512 + min 32 (135 - 4 * 32) * 4 - 512 : Nat) = 28 from rfl,
      show (512 : Nat) = 128 + (128 + (128 + 128)) from rfl,
      ← List.drop_drop, ← List.drop_drop, ← List.drop_drop,
      List.drop_left' l0, List.drop_left' l1, List.drop_left' l2, List.drop_left' l3,
      List.take_all_of_le (by omega)]

theorem bulk_read_chunking_witness :
    (ntagSaveRead (fun _ c => .resp 104 (List.replicate (c * 4) 0)) 135).2 =
      [(0, 32), (32, 32), (64, 32), (96, 32), (128, 7)] ∧
    (ntagSaveRead (fun _ c => .resp 104 (List.replicate (c * 4) 0)) 135).2.length =
      (135 + 31) / 32 ∧
    ∃ fileData,
      (ntagSaveRead (fun _ c => .resp 104 (List.replicate (c * 4) 0)) 135).1 = .ok fileData ∧
      fileData.length = 540 ∧
      ∀ k, k < 5 → ∃ d,
        (fun (_ c : Nat) => CmdOutcome.resp 104 (List.replicate (c * 4) 0)) (k * 32)
          (min 32 (135 - k * 32)) = .resp 104 d ∧
        listSlice fileData (k * 32 * 4) (k * 32 * 4 + min 32 (135 - k * 32) * 4) = d :=
  bulk_read_chunking (fun _ c => .resp 104 (List.replicate (c * 4) 0))
    (fun _ c => ⟨List.replicate (c * 4) 0, rfl, by simp⟩)

/-- On a chunk-start list split as `pre ++ p :: post` where every chunk in
`pre` answers with success status and chunk `p` answers with a non-success
status, the loop returns the logged-error abort after issuing exactly the
`pre` requests and the failing request: nothing in `post` is requested and
no data is returned. -/
theorem ntagReadGo_abort (resp : Nat → Nat → CmdOutcome) (totalPages s : Nat)
    (hs : s ≠ 104) (pre : List Nat) (p : Nat) (post : List Nat)
    (hpre : ∀ q ∈ pre, ∃ d, resp q (min 32 (totalPages - q)) = .resp 104 d)
    (hbad : ∃ d, resp p (min 32 (totalPages - p)) = .resp s d) :
    ∀ acc, ntagReadGo resp totalPages (pre ++ p :: post) acc =
      (.errorLogged p (min 32 (totalPages - p)) s,
       pre.map (fun q => (q, min 32 (totalPages - q))) ++ [(p, min 32 (totalPages - p))]) := by
  induction pre with
  | nil =>
    intro acc
    obtain ⟨d, hd⟩ := hbad
    simp [ntagReadGo, hd, hs]
  | cons q pre ih =>
    intro acc
    obtain ⟨d, hd⟩ := hpre q (List.mem_cons_self q pre)
    have := ih (fun x hx => hpre x (List.mem_cons_of_mem q hx)) (acc ++ d)
    simp [ntagReadGo, hd, this]

/-- Zero-padding of a chunk of file bytes to the full batch size, the net
effect of the zero-initialized `cmdData` buffer of the write loop when the
final page of the file is partial. -/
def padTo (n : Nat) (l : List Nat) : List Nat := l ++ List.replicate (n - l.length) 0

/-- The `cmdData` payload built by the NTAG page write loop of the slot load
command for one batch: start page, batch page count, then the batch pages
copied from the file (zero-padded past the end of the file). -/
def ntagWriteChunk (fileData : List Nat) (pageIndex count : Nat) : List Nat :=
  pageIndex :: count ::
    padTo (count * 4) (listSlice fileData (pageIndex * 4) (pageIndex * 4 + count * 4))

/-- How the chunked write loop ends: all batches written, aborted by the
logged error and early return on a bad chunk status, or aborted by an
exception propagating out of the loop. -/
inductive WriteOutcome where
  | ok
  | errorLogged (startIndex count status : Nat)
  | thrown
deriving DecidableEq, Repr

/-- Body of the chunked NTAG page write loop (slot loadram/loadflash): for
each start index send the batch `cmdData`; a non-success status (not 0x68)
logs an error and returns early.  The second component is the list of
`cmdData` payloads actually sent.  The Mifare block write loop next to it in
the source has the same control flow. -/
def ntagWriteGo (resp : List Nat → CmdOutcome) (fileData : List Nat) (totalPages : Nat) :
    List Nat → WriteOutcome × List (List Nat)
  | [] => (.ok, [])
  | p :: rest =>
    match resp (ntagWriteChunk fileData p (min 32 (totalPages - p))) with
    | .exn => (.thrown, [ntagWriteChunk fileData p (min 32 (totalPages - p))])
    | .resp s _ =>
      if s = 104 then
        ((ntagWriteGo resp fileData totalPages rest).1,
         ntagWriteChunk fileData p (min 32 (totalPages - p)) ::
           (ntagWriteGo resp fileData totalPages rest).2)
      else (.errorLogged p (min 32 (totalPages - p)) s,
        [ntagWriteChunk fileData p (min 32 (totalPages - p))])

/-- The chunked NTAG page write of the slot load command: `ceil(len / 4)`
pages in batches of at most 32, against a response oracle for each sent
`cmdData`. -/
def ntagLoadWrite (resp : List Nat → CmdOutcome) (fileData : List Nat) :
    WriteOutcome × List (List Nat) :=
  ntagWriteGo resp fileData ((fileData.length + 3) / 4)
    (chunkStarts ((fileData.length + 3) / 4))

/-- Write-loop analogue of `ntagReadGo_abort`: with the chunk starts split as
`pre ++ p :: post`, all of `pre` succeeding and chunk `p` answering a
non-success status, the loop aborts with the logged error after sending
exactly the `pre` batches and the failing batch. -/
theorem ntagWriteGo_abort (resp : List Nat → CmdOutcome) (fileData : List Nat)
    (totalPages s : Nat) (hs : s ≠ 104) (pre : List Nat) (p : Nat) (post : List Nat)
    (hpre : ∀ q ∈ pre, ∃ d,
      resp (ntagWriteChunk fileData q (min 32 (totalPages - q))) = .resp 104 d)
    (hbad : ∃ d, resp (ntagWriteChunk fileData p (min 32 (totalPages - p))) = .resp s d) :
    ntagWriteGo resp fileData totalPages (pre ++ p :: post) =
      (.errorLogged p (min 32 (totalPages - p)) s,
       pre.map (fun q => ntagWriteChunk fileData q (min 32 (totalPages - q))) ++
         [ntagWriteChunk fileData p (min 32 (totalPages - p))]) := by
  induction pre with
  | nil =>
    obtain ⟨d, hd⟩ := hbad
    simp [ntagWriteGo, hd, hs]
  | cons q pre ih =>
    obtain ⟨d, hd⟩ := hpre q (List.mem_cons_self q pre)
    have := ih (fun x hx => hpre x (List.mem_cons_of_mem q hx))
    simp [ntagWriteGo, hd, this]

/-- C7 counterexample: a chunk answering with status 0 (not the success
status 0x68) makes both the slot save read loop and the slot load write loop
log an error and return early; the outcome is the logged abort, not a thrown
error, refuting the claim that chunk failures surface as thrown
partial-transfer errors. -/
theorem bulk_failure_not_thrown :
    ntagSaveRead (fun _ _ => .resp 0 []) 135 = (.errorLogged 0 32 0, [(0, 32)]) ∧
    (ntagSaveRead (fun _ _ => .resp 0 []) 135).1 ≠ SaveOutcome.thrown ∧
    ntagLoadWrite (fun _ => .resp 0 []) (List.replicate 16 7) =
      (.errorLogged 0 4 0, [0 :: 4 :: List.replicate 16 7]) ∧
    (ntagLoadWrite (fun _ => .resp 0 []) (List.replicate 16 7)).1 ≠ WriteOutcome.thrown := by
  refine ⟨by decide, by decide, by decide, by decide⟩

/-- C7 (amended): in a chunked bulk read or write, a chunk response with
non-success status (not 0x68) aborts the whole operation: no further chunk
requests are issued beyond the failing one, no reassembled data is returned
and no file data is sent further, and the failure is surfaced by logging an
error and returning early (not by throwing). -/
theorem bulk_failure_aborts :
    (∀ (resp : Nat → Nat → CmdOutcome) (totalPages s : Nat)
      (pre : List Nat) (p : Nat) (post : List Nat),
      chunkStarts totalPages = pre ++ p :: post →
      (∀ q ∈ pre, ∃ d, resp q (min 32 (totalPages - q)) = .resp 104 d) →
      (∃ d, resp p (min 32 (totalPages - p)) = .resp s d) →
      s ≠ 104 →
      ntagSaveRead resp totalPages =
        (.errorLogged p (min 32 (totalPages - p)) s,
         pre.map (fun q => (q, min 32 (totalPages - q))) ++
           [(p, min 32 (totalPages - p))])) ∧
    (∀ (resp : List Nat → CmdOutcome) (fileData : List Nat) (s : Nat)
      (pre : List Nat) (p : Nat) (post : List Nat),
      chunkStarts ((fileData.length + 3) / 4) = pre ++ p :: post →
      (∀ q ∈ pre, ∃ d, resp (ntagWriteChunk fileData q
        (min 32 ((fileData.length + 3) / 4 - q))) = .resp 104 d) →
      (∃ d, resp (ntagWriteChunk fileData p
        (min 32 ((fileData.length + 3) / 4 - p))) = .resp s d) →
      s ≠ 104 →
      ntagLoadWrite resp fileData =
        (.errorLogged p (min 32 ((fileData.length + 3) / 4 - p)) s,
         pre.map (fun q => ntagWriteChunk fileData q
           (min 32 ((fileData.length + 3) / 4 - q))) ++
           [ntagWriteChunk fileData p (min 32 ((fileData.length + 3) / 4 - p))])) := by
  constructor
  · intro resp totalPages s pre p post hsplit hpre hbad hs
    rw [ntagSaveRead, hsplit]
    exact ntagReadGo_abort resp totalPages s hs pre p post hpre hbad []
  · intro resp fileData s pre p post hsplit hpre hbad hs
    rw [ntagLoadWrite, hsplit]
    exact ntagWriteGo_abort resp fileData ((fileData.length + 3) / 4) s hs pre p post hpre hbad

theorem bulk_failure_aborts_witness :
    ntagSaveRead
      (fun i _ => if i = 0 then .resp 104 (List.replicate 128 0) else .resp 0 []) 135 =
      (.errorLogged 32 32 0, [(0, 32), (32, 32)]) ∧
    ntagLoadWrite (fun _ => .resp 0 []) (List.replicate 16 7) =
      (.errorLogged 0 4 0, [0 :: 4 :: List.replicate 16 7]) := by
  constructor
  · rw [bulk_failure_aborts.1
      (fun i _ => if i = 0 then .resp 104 (List.replicate 128 0) else .resp 0 [])
      135 0 [0] 32 [64, 96, 128] (by decide)
      (by
        intro q hq
        simp only [List.mem_singleton] at hq
        subst hq
        exact ⟨List.replicate 128 0, rfl⟩)
      ⟨[], rfl⟩ (by decide)]
    decide
  · rw [bulk_failure_aborts.2 (fun _ => .resp 0 []) (List.replicate 16 7)
      0 [] 0 [] (by decide) (fun q hq => absurd hq (List.not_mem_nil q))
      ⟨[], rfl⟩ (by decide)]
    decide

/-! ## Command channel: pending callbacks, timeouts and correlation -/

/-- State of the command channel: `callbacks` models the
`responseCallbacks[cmd]` object (at most one entry per command id, an
assignment overwrites), `timers` the armed `setTimeout` handles keyed by the
request that armed them, and the remaining fields record the observable
outcomes: resolved requests with their frames, timeout-rejected requests,
and inbound frames dropped with no pending entry. -/
structure ChannelState where
  callbacks : List (Nat × Nat)
  timers : List (Nat × Nat)
  resolved : List (Nat × Frame)
  rejectedTimeout : List Nat
  dropped : List Frame
deriving DecidableEq, Repr

def emptyChannel : ChannelState := ⟨[], [], [], [], []⟩

/-- Events of one session: a `sendCmd` call (arms a timeout, then registers
the resolve callback under the command id), a timeout firing (only possible
while its timer is armed), and a decoded frame arriving at the dispatch. -/
inductive ChEvent where
  | send (reqId cmd : Nat)
  | timeoutFire (reqId : Nat)
  | frameArrive (f : Frame)

/-- One event of the command channel, transcribing `sendCmd` (arm timer,
overwrite `responseCallbacks[cmd]`), the timeout handler (delete the
callback entry for the command, reject), and the frame dispatch in
`parseFrames`/`handleResponse` (resolve and delete the matching entry and
clear its timer, or drop the frame unmatched). -/
def chStep (st : ChannelState) (e : ChEvent) : ChannelState :=
  match e with
  | .send r c =>
    { st with
      timers := (r, c) :: st.timers
      callbacks := (c, r) :: st.callbacks.filter (fun e => e.1 != c) }
  | .timeoutFire r =>
    match st.timers.lookup r with
    | some c =>
      { st with
        timers := st.timers.filter (fun e => e.1 != r)
        callbacks := st.callbacks.filter (fun e => e.1 != c)
        rejectedTimeout := r :: st.rejectedTimeout }
    | none => st
  | .frameArrive f =>
    match st.callbacks.lookup f.cmd with
    | some r =>
      { st with
        callbacks := st.callbacks.filter (fun e => e.1 != f.cmd)
        timers := st.timers.filter (fun e => e.1 != r)
        resolved := (r, f) :: st.resolved }
    | none => { st with dropped := f :: st.dropped }

/-- A session run: fold the events over the empty channel. -/
def chRun (events : List ChEvent) : ChannelState :=
  events.foldl chStep emptyChannel

/-- C8: when a send of command id c times out before a matching frame
arrives, the request is rejected with the timeout error and the pending
entry for c is deleted, so a frame for c arriving later is dropped
unmatched, and a subsequent send with the same command id c registers
cleanly and resolves with its own response. -/
theorem timeout_cleanup_independence (c r1 r2 : Nat) (f1 f2 : Frame)
    (h1 : f1.cmd = c) (h2 : f2.cmd = c) :
    (chRun [.send r1 c, .timeoutFire r1, .frameArrive f1, .send r2 c,
      .frameArrive f2]).rejectedTimeout = [r1] ∧
    (chRun [.send r1 c, .timeoutFire r1, .frameArrive f1, .send r2 c,
      .frameArrive f2]).dropped = [f1] ∧
    (chRun [.send r1 c, .timeoutFire r1, .frameArrive f1, .send r2 c,
      .frameArrive f2]).resolved = [(r2, f2)] ∧
    (chRun [.send r1 c, .timeoutFire r1, .frameArrive f1, .send r2 c,
      .frameArrive f2]).callbacks.lookup c = none := by
  simp [chRun, chStep, emptyChannel, h1, h2, List.lookup]

theorem timeout_cleanup_independence_witness :
    (chRun [.send 1 1000, .timeoutFire 1, .frameArrive ⟨1000, 0, []⟩, .send 2 1000,
      .frameArrive ⟨1000, 104, [5]⟩]).rejectedTimeout = [1] ∧
    (chRun [.send 1 1000, .timeoutFire 1, .frameArrive ⟨1000, 0, []⟩, .send 2 1000,
      .frameArrive ⟨1000, 104, [5]⟩]).dropped = [⟨1000, 0, []⟩] ∧
    (chRun [.send 1 1000, .timeoutFire 1, .frameArrive ⟨1000, 0, []⟩, .send 2 1000,
      .frameArrive ⟨1000, 104, [5]⟩]).resolved = [(2, ⟨1000, 104, [5]⟩)] ∧
    (chRun [.send 1 1000, .timeoutFire 1, .frameArrive ⟨1000, 0, []⟩, .send 2 1000,
      .frameArrive ⟨1000, 104, [5]⟩]).callbacks.lookup 1000 = none :=
  timeout_cleanup_independence 1000 1 2 ⟨1000, 0, []⟩ ⟨1000, 104, [5]⟩ rfl rfl

/-! ## NTAG215 scan-and-save script: mode switch with guaranteed restore -/

def CMD_SET_ACTIVE_MODE : Nat := 1001
def CMD_HF14A_SCAN : Nat := 2000
def CMD_HF14A_RAW : Nat := 2010

/-- Result of the k-th `chameleonUltra.cmd` call made by the scan script:
the resolved response, or a rejected promise (a thrown error). -/
inductive CmdRes where
  | ok (status : Nat) (data : List Nat)
  | exn

/-- Environment of one script run: the device responses by call index, and
whether the file write throws. -/
structure ScanEnv where
  call : Nat → CmdRes
  writeFileThrows : Bool

/-- How the try-block body of the script ends: an early or normal return,
or an error thrown into the catch block.  Either way the finally block runs. -/
inductive BodyExit where
  | returned
  | raised

/-- Payload of the HF14A_RAW page read command built by the script:
options (252 on the first chunk, 236 after), big-endian timeout 100 ms,
big-endian bit length 16, then the raw READ command `0x30, page`. -/
def readCmdBytes (page : Nat) : List Nat :=
  [if page = 0 then 252 else 236, 0, 100, 0, 16, 48, page]

/-- The scan retry loop: up to the given number of attempts, issue
HF14A_SCAN; break as soon as a response carries non-empty data; a rejected
call raises out of the loop.  Returns the issued commands and either `none`
(raised) or the next call index with the last response data. -/
def scanLoop (call : Nat → CmdRes) : Nat → Nat →
    List (Nat × List Nat) × Option (Nat × List Nat)
  | 0, idx => ([], some (idx, []))
  | n + 1, idx =>
    match call idx with
    | .exn => ([(CMD_HF14A_SCAN, [])], none)
    | .ok _ d =>
      if 0 < d.length then ([(CMD_HF14A_SCAN, [])], some (idx + 1, d))
      else if n = 0 then ([(CMD_HF14A_SCAN, [])], some (idx + 1, d))
      else
        let r := scanLoop call n (idx + 1)
        ((CMD_HF14A_SCAN, []) :: r.1, r.2)

/-- How the page read loop ends: all pages read, an early return on a page
whose status is not HF_TAG_OK (0), or a raised error. -/
inductive LoopExit where
  | done (nextIdx : Nat)
  | returned
  | raised

/-- The page read loop over the chunk start pages: issue HF14A_RAW per
chunk; a status other than 0 logs and returns early; a rejected call raises. -/
def pageLoop (call : Nat → CmdRes) : List Nat → Nat →
    List (Nat × List Nat) × LoopExit
  | [], idx => ([], .done idx)
  | p :: rest, idx =>
    match call idx with
    | .exn => ([(CMD_HF14A_RAW, readCmdBytes p)], .raised)
    | .ok s _ =>
      if s ≠ 0 then ([(CMD_HF14A_RAW, readCmdBytes p)], .returned)
      else
        let r := pageLoop call rest (idx + 1)
        ((CMD_HF14A_RAW, readCmdBytes p) :: r.1, r.2)

/-- The part of the try block after a successful reader-mode entry: the
scan retry loop (no tag after all retries returns early; a short scan
response throws at the SAK read), then the page read loop, then the file
write (which may throw). -/
def scannerAfterEntry (env : ScanEnv) : List (Nat × List Nat) × BodyExit :=
  match (scanLoop env.call 5 1).2 with
  | none => ((scanLoop env.call 5 1).1, .raised)
  | some (idx, d) =>
    if d.length = 0 then ((scanLoop env.call 5 1).1, .returned)
    else if d.length < byteAt d 0 + 4 then ((scanLoop env.call 5 1).1, .raised)
    else
      ((scanLoop env.call 5 1).1 ++ (pageLoop env.call ((List.range 34).map (· * 4)) idx).1,
       match (pageLoop env.call ((List.range 34).map (· * 4)) idx).2 with
       | .raised => .raised
       | .returned => .returned
       | .done _ => if env.writeFileThrows then .raised else .returned)

/-- The try-block body of the scan script: switch to reader mode (early
return unless status 0x68), then scan, read pages and save the file.
Returns the issued commands and how the body ended. -/
def scannerBody (env : ScanEnv) : List (Nat × List Nat) × BodyExit :=
  match env.call 0 with
  | .exn => ([(CMD_SET_ACTIVE_MODE, [1])], .raised)
  | .ok st _ =>
    if st ≠ 104 then ([(CMD_SET_ACTIVE_MODE, [1])], .returned)
    else ((CMD_SET_ACTIVE_MODE, [1]) :: (scannerAfterEntry env).1, (scannerAfterEntry env).2)

/-- All commands issued by one run of the script: whatever the try block
issued, then the finally block unconditionally issues the emulator mode
restore `CMD_SET_ACTIVE_MODE` with payload 0 (its own failure is swallowed
by the inner try/catch). -/
def scannerTrace (env : ScanEnv) : List (Nat × List Nat) :=
  (scannerBody env).1 ++ [(CMD_SET_ACTIVE_MODE, [0])]

theorem scanLoop_succ (call : Nat → CmdRes) (n idx : Nat) :
    scanLoop call (n + 1) idx =
      match call idx with
      | .exn => ([(CMD_HF14A_SCAN, [])], none)
      | .ok _ d =>
        if 0 < d.length then ([(CMD_HF14A_SCAN, [])], some (idx + 1, d))
        else if n = 0 then ([(CMD_HF14A_SCAN, [])], some (idx + 1, d))
        else ((CMD_HF14A_SCAN, []) :: (scanLoop call n (idx + 1)).1,
          (scanLoop call n (idx + 1)).2) := rfl

theorem pageLoop_cons (call : Nat → CmdRes) (p : Nat) (rest : List Nat) (idx : Nat) :
    pageLoop call (p :: rest) idx =
      match call idx with
      | .exn => ([(CMD_HF14A_RAW, readCmdBytes p)], .raised)
      | .ok s _ =>
        if s ≠ 0 then ([(CMD_HF14A_RAW, readCmdBytes p)], .returned)
        else ((CMD_HF14A_RAW, readCmdBytes p) :: (pageLoop call rest (idx + 1)).1,
          (pageLoop call rest (idx + 1)).2) := rfl

theorem scanLoop_trace (call : Nat → CmdRes) :
    ∀ n idx, ∀ e ∈ (scanLoop call n idx).1, e = (CMD_HF14A_SCAN, []) := by
  intro n
  induction n with
  | zero => intro idx e he; simp [scanLoop] at he
  | succ n ih =>
    intro idx e he
    rw [scanLoop_succ] at he
    cases hc : call idx with
    | exn =>
      rw [hc] at he
      replace he : e ∈ [(CMD_HF14A_SCAN, ([] : List Nat))] := he
      simpa using he
    | ok s d =>
      rw [hc] at he
      replace he : e ∈ (if 0 < d.length then ([(CMD_HF14A_SCAN, [])], some (idx + 1, d))
        else if n = 0 then ([(CMD_HF14A_SCAN, [])], some (idx + 1, d))
        else ((CMD_HF14A_SCAN, []) :: (scanLoop call n (idx + 1)).1,
          (scanLoop call n (idx + 1)).2)).1 := he
      split_ifs at he
      · simpa using he
      · simpa using he
      · replace he : e ∈ (CMD_HF14A_SCAN, ([] : List Nat)) :: (scanLoop call n (idx + 1)).1 := he
        rcases List.mem_cons.mp he with he | he
        · exact he
        · exact ih (idx + 1) e he

theorem pageLoop_trace (call : Nat → CmdRes) :
    ∀ ps idx, ∀ e ∈ (pageLoop call ps idx).1, ∃ p, e = (CMD_HF14A_RAW, readCmdBytes p) := by
  intro ps
  induction ps with
  | nil => intro idx e he; simp [pageLoop] at he
  | cons p rest ih =>
    intro idx e he
    rw [pageLoop_cons] at he
    cases hc : call idx with
    | exn =>
      rw [hc] at he
      replace he : e ∈ [(CMD_HF14A_RAW, readCmdBytes p)] := he
      exact ⟨p, by simpa using he⟩
    | ok s d =>
      rw [hc] at he
      replace he : e ∈ (if s ≠ 0 then ([(CMD_HF14A_RAW, readCmdBytes p)], LoopExit.returned)
        else ((CMD_HF14A_RAW, readCmdBytes p) :: (pageLoop call rest (idx + 1)).1,
          (pageLoop call rest (idx + 1)).2)).1 := he
      split_ifs at he
      · exact ⟨p, by simpa using he⟩
      · replace he : e ∈ (CMD_HF14A_RAW, readCmdBytes p) :: (pageLoop call rest (idx + 1)).1 := he
        rcases List.mem_cons.mp he with he | he
        · exact ⟨p, he⟩
        · exact ih (idx + 1) e he

/-- Commands issued after the reader-mode entry are only scans and raw page
reads. -/
theorem scannerAfterEntry_trace (env : ScanEnv) :
    ∀ e ∈ (scannerAfterEntry env).1, e.1 = CMD_HF14A_SCAN ∨ e.1 = CMD_HF14A_RAW := by
  have hscan : ∀ e ∈ (scanLoop env.call 5 1).1,
      e.1 = CMD_HF14A_SCAN ∨ e.1 = CMD_HF14A_RAW :=
    fun e he => Or.inl (by rw [scanLoop_trace env.call 5 1 e he])
  have hpage : ∀ idx, ∀ e ∈ (pageLoop env.call ((List.range 34).map (· * 4)) idx).1,
      e.1 = CMD_HF14A_SCAN ∨ e.1 = CMD_HF14A_RAW := by
    intro idx e he
    obtain ⟨p, hp⟩ := pageLoop_trace env.call _ idx e he
    exact Or.inr (by rw [hp])
  intro e he
  rw [scannerAfterEntry] at he
  rcases hs : (scanLoop env.call 5 1).2 with _ | ⟨idx, d⟩
  · rw [hs] at he
    exact hscan e he
  · rw [hs] at he
    replace he : e ∈ (if d.length = 0 then ((scanLoop env.call 5 1).1, BodyExit.returned)
      else if d.length < byteAt d 0 + 4 then ((scanLoop env.call 5 1).1, BodyExit.raised)
      else ((scanLoop env.call 5 1).1 ++
          (pageLoop env.call ((List.range 34).map (· * 4)) idx).1,
        match (pageLoop env.call ((List.range 34).map (· * 4)) idx).2 with
        | .raised => BodyExit.raised
        | .returned => BodyExit.returned
        | .done _ => if env.writeFileThrows then BodyExit.raised
          else BodyExit.returned)).1 := he
    split_ifs at he
    · exact hscan e he
    · exact hscan e he
    · replace he : e ∈ (scanLoop env.call 5 1).1 ++
        (pageLoop env.call ((List.range 34).map (· * 4)) idx).1 := he
      rcases List.mem_append.mp he with he | he
      · exact hscan e he
      · exact hpage idx e he
    · replace he : e ∈ (scanLoop env.call 5 1).1 ++
        (pageLoop env.call ((List.range 34).map (· * 4)) idx).1 := he
      rcases List.mem_append.mp he with he | he
      · exact hscan e he
      · exact hpage idx e he

/-- The try block issues the reader-mode entry first and after that only
scan and raw-read commands: never the emulator restore with payload 0. -/
theorem scannerBody_shape (env : ScanEnv) :
    ∃ t, (scannerBody env).1 = (CMD_SET_ACTIVE_MODE, [1]) :: t ∧
      ∀ e ∈ t, e.1 = CMD_HF14A_SCAN ∨ e.1 = CMD_HF14A_RAW := by
  rw [scannerBody]
  cases h0 : env.call 0 with
  | exn => exact ⟨[], rfl, by simp⟩
  | ok st d =>
    by_cases hst : st ≠ 104
    · refine ⟨[], ?_, by simp⟩
      show (if st ≠ 104 then ([(CMD_SET_ACTIVE_MODE, [1])], BodyExit.returned)
        else ((CMD_SET_ACTIVE_MODE, [1]) :: (scannerAfterEntry env).1,
          (scannerAfterEntry env).2)).1 = [(CMD_SET_ACTIVE_MODE, [1])]
      rw [if_pos hst]
    · refine ⟨(scannerAfterEntry env).1, ?_, scannerAfterEntry_trace env⟩
      show (if st ≠ 104 then ([(CMD_SET_ACTIVE_MODE, [1])], BodyExit.returned)
        else ((CMD_SET_ACTIVE_MODE, [1]) :: (scannerAfterEntry env).1,
          (scannerAfterEntry env).2)).1 =
        (CMD_SET_ACTIVE_MODE, [1]) :: (scannerAfterEntry env).1
      rw [if_neg hst]

theorem mode_switch_restoration (env : ScanEnv)
    (hentry : ∃ d, env.call 0 = .ok 104 d) :
    ∃ t, scannerTrace env = (CMD_SET_ACTIVE_MODE, [1]) :: t ∧
      t.count (CMD_SET_ACTIVE_MODE, [0]) = 1 := by
  obtain ⟨t, ht, hmem⟩ := scannerBody_shape env
  refine ⟨t ++ [(CMD_SET_ACTIVE_MODE, [0])], ?_, ?_⟩
  · rw [scannerTrace, ht]
    rfl
  · rw [List.count_append]
    have hzero : t.count (CMD_SET_ACTIVE_MODE, [0]) = 0 := by
      rw [List.count_eq_zero]
      intro hc
      rcases hmem _ hc with h | h <;> simp [CMD_HF14A_SCAN, CMD_HF14A_RAW,
        CMD_SET_ACTIVE_MODE] at h
    rw [hzero]
    rfl

theorem mode_switch_restoration_witness :
    ∃ t, scannerTrace ⟨fun _ => .ok 104 [], false⟩ =
      (CMD_SET_ACTIVE_MODE, [1]) :: t ∧
      t.count (CMD_SET_ACTIVE_MODE, [0]) = 1 :=
  mode_switch_restoration ⟨fun _ => .ok 104 [], false⟩ ⟨[], rfl⟩

end ChameleonSpec
